import Mathlib

/-!
Shallow embedding of the chronoamperometry analysis in
`src/madap/echem/voltammetry/voltammetry_CA.py` (class `Voltammetry_CA`),
together with the parts of `scipy.stats.linregress` that the class consumes
(slope, intercept, r_value).

Machine floats are modelled by an arbitrary linear ordered field (instantiated
at `ℚ` for executable checks and at `ℝ` where the source applies `np.sqrt`,
`np.log` or `np.pi`).  The two `ValueError` raise paths of
`scipy.stats.linregress` (empty input; identical x values with more than one
sample) are modelled by an `Except` result, and a raised error propagates out
of the sliding-window loop exactly as a Python exception unwinds it.

Division by zero in the exact field model yields `0` where IEEE arithmetic
would yield `nan`/`inf` (e.g. `slope = 0/0` on a single-point window, or
`np.log(0) = -inf` feeding a fit).  Every theorem below is stated on a domain
where no such junk value can reach the conclusion: single-point windows are
skipped through scipy's genuine `ssxm == 0` guard before their `slope` is ever
consumed, and the kinetics theorems either assume positive tail currents
(where `Real.log` agrees with `np.log`) or confine themselves to inputs whose
loops never execute, so the transformed values are computed but never used.
-/

namespace MADAP

variable {α : Type} [LinearOrderedField α]

/-- Result record of `scipy.stats.linregress` restricted to the three fields the
source reads (`slope, intercept, r_value, _, _`).  Since the caller only ever
uses `r_value ** 2`, the embedding carries that square directly as `r_squared`
(`r_value = ssxym / sqrt(ssxm*ssym)` clipped to `[-1, 1]`, hence
`r_value ** 2 = min (ssxym^2 / (ssxm*ssym)) 1`, and `0.0` when scipy's guard
`ssxm == 0.0 or ssym == 0.0` fires), avoiding an unneeded square root. -/
structure LinregressResult (α : Type) where
  slope : α
  intercept : α
  r_squared : α
deriving DecidableEq

/-- The dictionary built by `Voltammetry_CA._analyze_best_linear_fit`:
`{'start': …, 'end': …, 'r_squared': …, 'slope': …, 'intercept': …}`.
The key `'end'` is a reserved word in Lean and is rendered `end_index`
(the name the method's docstring uses for it). -/
structure LinearFitResult (α : Type) where
  start : ℕ
  end_index : ℕ
  r_squared : α
  slope : α
  intercept : α
deriving DecidableEq

/-- `np.mean(l)`: sum divided by length (`0` on the empty list, where numpy
would give `nan`; every use below is guarded by scipy's zero-variance check). -/
def mean (l : List α) : α := l.sum / (l.length : α)

/-- Sum of squared deviations from the mean, `Σ (v - mean l)^2`.
`scipy.stats.linregress` computes `ssxm = np.cov(x, y, bias=1)[0,0]`,
which is this quantity divided by `n`. -/
def dev_sumsq (l : List α) : α := (l.map (fun v => (v - mean l) ^ 2)).sum

/-- Sum of products of deviations, `Σ (x_i - mean x) * (y_i - mean y)`;
`n * ssxym` of `np.cov(x, y, bias=1)`. -/
def dev_sumprod (x y : List α) : α :=
  (List.zipWith (fun a b => (a - mean x) * (b - mean y)) x y).sum

/-- The `ValueError`s that `scipy.stats.linregress` can raise:
`"Inputs must not be empty."` (`emptyInput`) and
`"Cannot calculate a linear regression if all x values are identical"`
(`identicalX`). -/
inductive LinregressError
  | emptyInput
  | identicalX
deriving DecidableEq

/-- scipy's `np.amax(x) == np.amin(x)` test: the check only runs on nonempty
arrays (the empty case raises first), where the maximum equals the minimum
exactly when any two values are equal — the error message's
"all x values are identical". -/
def all_x_identical (x : List α) : Prop := ∀ v ∈ x, ∀ u ∈ x, v = u

instance all_x_identical_decidable (x : List α) : Decidable (all_x_identical x) :=
  List.decidableBAll _ x

/-- `scipy.stats.linregress(x, y)`, restricted to the consumed outputs:
```
if x.size == 0 or y.size == 0:
    raise ValueError("Inputs must not be empty.")
if np.amax(x) == np.amin(x) and len(x) > 1:
    raise ValueError("Cannot calculate a linear regression "
                     "if all x values are identical")
ssxm, ssxym, _, ssym = np.cov(x, y, bias=1).flat
if ssxm == 0.0 or ssym == 0.0:
    r = 0.0
else:
    r = ssxym / np.sqrt(ssxm * ssym)   -- clipped to [-1, 1]
slope = ssxym / ssxm
intercept = ymean - slope * xmean
```
with `r_squared = r ** 2` (see `LinregressResult`) and the raises modelled as
`Except.error`. -/
def linregress (x y : List α) : Except LinregressError (LinregressResult α) :=
  if x.length = 0 ∨ y.length = 0 then .error .emptyInput
  else if all_x_identical x ∧ 1 < x.length then .error .identicalX
  else
    let n : α := (x.length : α)
    let ssxm := dev_sumsq x / n
    let ssym := dev_sumsq y / n
    let ssxym := dev_sumprod x y / n
    .ok { slope := ssxym / ssxm
          intercept := mean y - (ssxym / ssxm) * mean x
          r_squared := if ssxm = 0 ∨ ssym = 0 then 0 else min (ssxym ^ 2 / (ssxm * ssym)) 1 }

/-- The regression of one window: `linregress(x_data[start:end], y_data[start:end])`
with `end = start + window_size`. -/
def window_fit (x y : List α) (window_size s : ℕ) :
    Except LinregressError (LinregressResult α) :=
  linregress ((x.drop s).take window_size) ((y.drop s).take window_size)

/-- The loop initialiser of `_analyze_best_linear_fit`:
`best_fit = {'start': 0, 'end': self.window_size, 'r_squared': 0, 'slope': 0, 'intercept': 0}`. -/
def best_fit_init (w : ℕ) : LinearFitResult α :=
  { start := 0, end_index := w, r_squared := 0, slope := 0, intercept := 0 }

/-- One iteration of the loop body of `_analyze_best_linear_fit`: fit the window
starting at `s` and replace `best_fit` when `r_squared > best_fit['r_squared']`
(strict comparison, so ties keep the incumbent).  A `ValueError` raised by
`linregress` aborts the loop: once the accumulator is an error it stays that
error, exactly as a Python exception unwinds the `for` loop. -/
def fit_step (x y : List α) (window_size : ℕ)
    (acc : Except LinregressError (LinearFitResult α)) (s : ℕ) :
    Except LinregressError (LinearFitResult α) :=
  match acc with
  | .error e => .error e
  | .ok best =>
    match window_fit x y window_size s with
    | .error e => .error e
    | .ok fit =>
      .ok (if fit.r_squared > best.r_squared then
        { start := s, end_index := s + window_size, r_squared := fit.r_squared,
          slope := fit.slope, intercept := fit.intercept }
      else best)

/-- Number of loop iterations: Python's `range(len(x_data) - self.window_size + 1)`
is empty when `len - w + 1 <= 0`, which truncated ℕ subtraction renders as
`len + 1 - w`. -/
def num_windows (len w : ℕ) : ℕ := len + 1 - w

/-- `Voltammetry_CA._analyze_best_linear_fit(x_data, y_data)` with the instance
attribute `self.window_size` passed explicitly.  The result is the best-fit
dictionary, or the `ValueError` of the first window on which `linregress`
raised. -/
def analyze_best_linear_fit (x y : List α) (window_size : ℕ) :
    Except LinregressError (LinearFitResult α) :=
  (List.range (num_windows x.length window_size)).foldl
    (fit_step x y window_size) (.ok (best_fit_init window_size))

/-- `np.cumsum` running from an accumulator: each output element is the running
sum including the current input element. -/
def cumsum_from (acc : α) : List α → List α
  | [] => []
  | v :: vs => (acc + v) :: cumsum_from (acc + v) vs

/-- `np.cumsum(l)`. -/
def cumsum (l : List α) : List α := cumsum_from 0 l

/-- `Voltammetry_CA._calculate_charge`'s computation of the cumulative charge:
```
delta_t = np.diff(self.np_time)
interval_charges = delta_t * self.np_current[1:]
np.cumsum(np.insert(interval_charges, 0, 0)).tolist()
```
(`np.diff` is the elementwise `time[i+1] - time[i]`). -/
def calculate_charge (time current : List α) : List α :=
  let delta_t := List.zipWith (fun a b => b - a) time time.tail
  let interval_charges := List.zipWith (· * ·) delta_t current.tail
  cumsum (0 :: interval_charges)

/-- The state of a `Voltammetry_CA` object restricted to the attributes the
charge computation touches.  `np_time`/`np_current` are the arrays built in
`__init__` from the `time`/`current` arguments (the `Voltammetry` base class,
not part of the sources, stores them unchanged); `cumulative_charge` is `None`
or a list, i.e. an `Option`. -/
structure Voltammetry_CA (α : Type) where
  np_time : List α
  np_current : List α
  cumulative_charge : Option (List α)

/-- The method `self._calculate_charge()` as a state transformer: it assigns
`self.cumulative_charge = np.cumsum(...).tolist()` and, having no `return`
statement, returns Python's `None` (the first component). -/
def calculate_charge_method (s : Voltammetry_CA α) :
    Option (List α) × Voltammetry_CA α :=
  (none, { s with cumulative_charge := some (calculate_charge s.np_time s.np_current) })

/-- Lines 14-19 of `Voltammetry_CA.__init__` restricted to the modelled
attributes: after storing `np_time`/`np_current` it executes
`self.cumulative_charge = self._calculate_charge() if charge is None else charge`,
i.e. when `charge is None` it runs the method on the current state and then
assigns the method's return value to the attribute. -/
def Voltammetry_CA_init (current time : List α) (charge : Option (List α)) :
    Voltammetry_CA α :=
  let s0 : Voltammetry_CA α :=
    { np_time := time, np_current := current, cumulative_charge := none }
  match charge with
  | none =>
      let r := calculate_charge_method s0
      { r.2 with cumulative_charge := r.1 }
  | some ch => { s0 with cumulative_charge := some ch }

/-- `scipy.constants.physical_constants["Faraday constant"][0]` (CODATA value,
in C/mol). -/
noncomputable def faraday_constant : ℝ := 96485.33212

/-- `Voltammetry_CA._calculate_diffusion_coefficient` with the instance
attributes passed explicitly:
```
t_inv_sqrt = np.sqrt(1 / self.np_time[1:])
best_fit = self._analyze_best_linear_fit(t_inv_sqrt, self.np_current[1:])
slope = best_fit['slope']
(slope ** 2 * np.pi) / (self.number_of_electrons ** 2 * faraday_constant ** 2
    * self.area_of_active_material ** 2 * self.concentration_of_active_material ** 2)
```
(the method stores this value in `self.diffusion_coefficient`; the embedding
returns it, and a `ValueError` escaping `_analyze_best_linear_fit` propagates
out of the method unchanged). -/
noncomputable def calculate_diffusion_coefficient (time current : List ℝ) (window_size : ℕ)
    (number_of_electrons area_of_active_material concentration_of_active_material : ℝ) :
    Except LinregressError ℝ :=
  let t_inv_sqrt := time.tail.map (fun t => Real.sqrt (1 / t))
  match analyze_best_linear_fit t_inv_sqrt current.tail window_size with
  | .error e => .error e
  | .ok best_fit =>
      .ok ((best_fit.slope ^ 2 * Real.pi) /
        (number_of_electrons ^ 2 * faraday_constant ^ 2 * area_of_active_material ^ 2 *
          concentration_of_active_material ^ 2))

/-- `Voltammetry_CA._analyze_reaction_kinetics`: fit `np.log(current[1:])` and
`1 / current[1:]` against `time[1:]`, then
```
if first_order_fit['r_squared'] > second_order_fit['r_squared']:
    self.reaction_order = 1
    self.reaction_rate_constant = -first_order_fit['slope']
else:
    self.reaction_order = 2
    self.reaction_rate_constant = second_order_fit['slope']
```
The embedding returns the pair `(reaction_order, reaction_rate_constant)`; a
`ValueError` escaping either fit propagates out of the method unchanged. -/
noncomputable def analyze_reaction_kinetics (time current : List ℝ) (window_size : ℕ) :
    Except LinregressError (ℕ × ℝ) :=
  match analyze_best_linear_fit time.tail (current.tail.map Real.log) window_size with
  | .error e => .error e
  | .ok first_order_fit =>
    match analyze_best_linear_fit time.tail (current.tail.map (fun c => 1 / c)) window_size with
    | .error e => .error e
    | .ok second_order_fit =>
      if first_order_fit.r_squared > second_order_fit.r_squared then
        .ok (1, -first_order_fit.slope)
      else
        .ok (2, second_order_fit.slope)

/-! ### Lemmas about the sliding-window search -/

/-- Prefix of the loop of `_analyze_best_linear_fit`: the fold over the first
`k` window offsets. -/
def run_fit (x y : List α) (w k : ℕ) : Except LinregressError (LinearFitResult α) :=
  (List.range k).foldl (fit_step x y w) (.ok (best_fit_init w))

theorem run_fit_zero (x y : List α) (w : ℕ) :
    run_fit x y w 0 = .ok (best_fit_init w) := rfl

theorem run_fit_succ (x y : List α) (w k : ℕ) :
    run_fit x y w (k + 1) = fit_step x y w (run_fit x y w k) k := by
  unfold run_fit
  rw [List.range_succ, List.foldl_append, List.foldl_cons, List.foldl_nil]

theorem analyze_eq_run_fit (x y : List α) (w : ℕ) :
    analyze_best_linear_fit x y w = run_fit x y w (num_windows x.length w) := rfl

theorem dev_sumsq_singleton (v : α) : dev_sumsq [v] = 0 := by
  simp [dev_sumsq, mean]

theorem sum_of_constant (l : List α) (c : α) (h : ∀ v ∈ l, v = c) :
    l.sum = c * (l.length : α) := by
  induction l with
  | nil => simp
  | cons v vs ih =>
      rw [List.sum_cons, h v (List.mem_cons_self v vs),
        ih (fun u hu => h u (List.mem_cons_of_mem v hu)), List.length_cons]
      push_cast
      ring

/-- A window whose x values are all identical has zero variance. -/
theorem dev_sumsq_of_identical (l : List α) (h : all_x_identical l) : dev_sumsq l = 0 := by
  rcases l with - | ⟨v, vs⟩
  · rfl
  · have hconst : ∀ u ∈ v :: vs, u = v :=
      fun u hu => h u hu v (List.mem_cons_self v vs)
    have hmean : mean (v :: vs) = v := by
      unfold mean
      rw [sum_of_constant (v :: vs) v hconst]
      have hne : ((v :: vs).length : α) ≠ 0 := by
        simp only [List.length_cons]
        push_cast
        positivity
      field_simp
    refine List.sum_eq_zero ?_
    intro u hu
    obtain ⟨t, ht, rfl⟩ := List.mem_map.mp hu
    rw [hmean, hconst t ht]
    show (v - v) ^ 2 = 0
    simp

/-- When `linregress` succeeds with zero x variance (only possible on a single
sample), the `ssxm == 0` guard sets `r = 0.0`, hence `r_squared = 0`. -/
theorem linregress_ok_r_squared_of_zero_var (x y : List α) (fi : LinregressResult α)
    (hok : linregress x y = .ok fi) (h : dev_sumsq x = 0) : fi.r_squared = 0 := by
  unfold linregress at hok
  split at hok
  · exact Except.noConfusion hok
  · split at hok
    · exact Except.noConfusion hok
    · dsimp only at hok
      injection hok with hh
      rw [← hh]
      dsimp only
      rw [h, zero_div]
      simp

/-- `linregress` on a single-point x array does not raise: the empty check and
the `len(x) > 1` conjunct of the identical-x check both fail. -/
theorem linregress_singleton_ok (v : α) (ys : List α) (hy : ys ≠ []) :
    ∃ fi, linregress [v] ys = .ok fi := by
  have hc1 : ¬ (([v] : List α).length = 0 ∨ ys.length = 0) := by
    rintro (h | h)
    · simp at h
    · exact hy (List.length_eq_zero.mp h)
  have hc2 : ¬ (all_x_identical [v] ∧ 1 < ([v] : List α).length) := by
    rintro ⟨-, h1⟩
    simp at h1
  unfold linregress
  rw [if_neg hc1, if_neg hc2]
  exact ⟨_, rfl⟩

/-- On nonempty slices the only `ValueError` `linregress` can raise is the
identical-x one. -/
theorem window_fit_error_identicalX (x y : List α) (w s : ℕ) (e : LinregressError)
    (hx : (x.drop s).take w ≠ []) (hy : (y.drop s).take w ≠ [])
    (herr : window_fit x y w s = .error e) : e = .identicalX := by
  unfold window_fit linregress at herr
  rw [if_neg (by
    rintro (h | h)
    · exact hx (List.length_eq_zero.mp h)
    · exact hy (List.length_eq_zero.mp h))] at herr
  split at herr
  · injection herr with hh
    exact hh.symm
  · dsimp only at herr
    exact Except.noConfusion herr

/-- A window offset inside the loop range has a full-width x slice. -/
theorem window_slice_length (x : List α) (w s : ℕ) (hs : s < num_windows x.length w) :
    ((x.drop s).take w).length = w := by
  rw [List.length_take, List.length_drop]
  unfold num_windows at hs
  omega

/-- When the window count is zero the loop never runs and the sentinel is
returned (Python's `range` of a non-positive bound is empty, so `linregress`
is never called). -/
theorem analyze_empty (x y : List α) (w : ℕ) (h : x.length < w) :
    analyze_best_linear_fit x y w = .ok (best_fit_init w) := by
  have h0 : num_windows x.length w = 0 := by unfold num_windows; omega
  rw [analyze_eq_run_fit, h0, run_fit_zero]

/-- If every window fits successfully with `r_squared ≤ 0` the loop never
replaces the sentinel. -/
theorem run_fit_all_degenerate (x y : List α) (w : ℕ) : ∀ k : ℕ,
    (∀ s, s < k → ∃ fi, window_fit x y w s = .ok fi ∧ fi.r_squared ≤ 0) →
    run_fit x y w k = .ok (best_fit_init w) := by
  intro k
  induction k with
  | zero => intro _; rfl
  | succ k ih =>
      intro h
      rw [run_fit_succ, ih (fun s hs => h s (Nat.lt_succ_of_lt hs))]
      obtain ⟨fi, hfi, hr⟩ := h k (Nat.lt_succ_self k)
      simp only [fit_step, hfi]
      rw [if_neg (show ¬ fi.r_squared > (best_fit_init (α := α) w).r_squared from
        not_lt.mpr hr)]

/-- An error escaping the loop was raised by `linregress` on some window in
range. -/
theorem run_fit_error_src (x y : List α) (w : ℕ) : ∀ (k : ℕ) (e : LinregressError),
    run_fit x y w k = .error e → ∃ s, s < k ∧ window_fit x y w s = .error e := by
  intro k
  induction k with
  | zero =>
      intro e h
      rw [run_fit_zero] at h
      exact Except.noConfusion h
  | succ k ih =>
      intro e h
      rw [run_fit_succ] at h
      cases hk : run_fit x y w k with
      | error e' =>
          rw [hk] at h
          have he : e' = e := by
            simpa only [fit_step, Except.error.injEq] using h
          obtain ⟨s, hs, hws⟩ := ih e' hk
          exact ⟨s, Nat.lt_succ_of_lt hs, he ▸ hws⟩
      | ok best =>
          rw [hk] at h
          cases hwf : window_fit x y w k with
          | error e'' =>
              have he : e'' = e := by
                simpa only [fit_step, hwf, Except.error.injEq] using h
              exact ⟨k, Nat.lt_succ_self k, he ▸ hwf⟩
          | ok fit =>
              exfalso
              simp only [fit_step, hwf] at h
              exact Except.noConfusion h

/-- Loop invariant of `_analyze_best_linear_fit`: whenever the first `k`
iterations complete without a `ValueError`, the running best has a
non-negative `r_squared` bounding every (necessarily successful) window fit
seen so far; if it is still `≤ 0` the record is untouched since
initialisation; and if it is positive it is the verbatim fit of the earliest
window attaining it. -/
theorem run_fit_invariant (x y : List α) (w : ℕ) : ∀ (k : ℕ) (res : LinearFitResult α),
    run_fit x y w k = .ok res →
    0 ≤ res.r_squared ∧
    (∀ s, s < k → ∃ fi, window_fit x y w s = .ok fi ∧ fi.r_squared ≤ res.r_squared) ∧
    (res.r_squared ≤ 0 → res = best_fit_init w) ∧
    (0 < res.r_squared →
      ∃ s₀ fi₀, s₀ < k ∧ window_fit x y w s₀ = .ok fi₀ ∧
        res = { start := s₀, end_index := s₀ + w, r_squared := fi₀.r_squared,
                slope := fi₀.slope, intercept := fi₀.intercept } ∧
        ∀ t ft, t < s₀ → window_fit x y w t = .ok ft → ft.r_squared < res.r_squared) := by
  intro k
  induction k with
  | zero =>
      intro res h
      rw [run_fit_zero] at h
      injection h with h
      subst h
      refine ⟨le_refl 0, ?_, fun _ => rfl, ?_⟩
      · intro s hs; exact absurd hs (Nat.not_lt_zero s)
      · intro hpos; exact absurd hpos (lt_irrefl 0)
  | succ k ih =>
      intro res h
      rw [run_fit_succ] at h
      cases hk : run_fit x y w k with
      | error e =>
          rw [hk] at h
          simp only [fit_step] at h
          exact Except.noConfusion h
      | ok best =>
          rw [hk] at h
          obtain ⟨ih0, ih1, ih2, ih3⟩ := ih best hk
          cases hwf : window_fit x y w k with
          | error e =>
              simp only [fit_step, hwf] at h
              exact Except.noConfusion h
          | ok fit =>
              simp only [fit_step, hwf, Except.ok.injEq] at h
              by_cases hgt : fit.r_squared > best.r_squared
              · rw [if_pos hgt] at h
                subst h
                have hpos : 0 < fit.r_squared := lt_of_le_of_lt ih0 hgt
                refine ⟨le_of_lt hpos, ?_, ?_, ?_⟩
                · intro s hs
                  rcases Nat.lt_succ_iff_lt_or_eq.mp hs with hs' | rfl
                  · obtain ⟨fi, hfi, hle⟩ := ih1 s hs'
                    exact ⟨fi, hfi, le_of_lt (lt_of_le_of_lt hle hgt)⟩
                  · exact ⟨fit, hwf, le_refl _⟩
                · intro hle; exact absurd (lt_of_lt_of_le hpos hle) (lt_irrefl 0)
                · intro _
                  refine ⟨k, fit, Nat.lt_succ_self k, hwf, rfl, ?_⟩
                  intro t ft ht hft
                  obtain ⟨fi, hfi, hle⟩ := ih1 t ht
                  rw [hft] at hfi
                  injection hfi with hh
                  rw [← hh] at hle
                  exact lt_of_le_of_lt hle hgt
              · rw [if_neg hgt] at h
                subst h
                refine ⟨ih0, ?_, ih2, ?_⟩
                · intro s hs
                  rcases Nat.lt_succ_iff_lt_or_eq.mp hs with hs' | rfl
                  · exact ih1 s hs'
                  · exact ⟨fit, hwf, not_lt.mp hgt⟩
                · intro hpos
                  obtain ⟨s₀, fi₀, hs₀, hfi₀, heq, hlt⟩ := ih3 hpos
                  exact ⟨s₀, fi₀, Nat.lt_succ_of_lt hs₀, hfi₀, heq, hlt⟩

/-! ### Lemmas about the cumulative-charge computation -/

theorem cumsum_from_length (acc : α) (l : List α) : (cumsum_from acc l).length = l.length := by
  induction l generalizing acc with
  | nil => rfl
  | cons v vs ih => simp [cumsum_from, ih]

theorem cumsum_from_getD (l : List α) : ∀ (acc : α) (i : ℕ), i < l.length →
    (cumsum_from acc l).getD i 0 = acc + (l.take (i + 1)).sum := by
  induction l with
  | nil => intro acc i h; simp at h
  | cons v vs ih =>
      intro acc i h
      cases i with
      | zero => simp [cumsum_from]
      | succ i =>
          have h' : i < vs.length := by simpa using h
          simp only [cumsum_from, List.getD_cons_succ]
          rw [ih (acc + v) i h', List.take_succ_cons, List.sum_cons]
          ring

theorem take_sum_getD (l : List α) : ∀ i : ℕ, i ≤ l.length →
    (l.take i).sum = ∑ j ∈ Finset.range i, l.getD j 0 := by
  induction l with
  | nil =>
      intro i h
      have h0 : i = 0 := Nat.le_zero.mp h
      subst h0; simp
  | cons v vs ih =>
      intro i h
      cases i with
      | zero => simp
      | succ i =>
          have h' : i ≤ vs.length := by simpa using h
          rw [List.take_succ_cons, List.sum_cons, ih i h', Finset.sum_range_succ']
          simp only [List.getD_cons_succ, List.getD_cons_zero]
          exact add_comm _ _

theorem interval_charges_getD (time current : List α) (j : ℕ)
    (hj : j + 1 < time.length) (hlen : current.length = time.length) :
    (List.zipWith (· * ·) (List.zipWith (fun a b => b - a) time time.tail)
        current.tail).getD j 0
      = (time.getD (j + 1) 0 - time.getD j 0) * current.getD (j + 1) 0 := by
  have ht : j < time.tail.length := by rw [List.length_tail]; omega
  have hz1 : j < (List.zipWith (fun a b => b - a) time time.tail).length := by
    rw [List.length_zipWith]; omega
  have hz : j < (List.zipWith (· * ·) (List.zipWith (fun a b => b - a) time time.tail)
      current.tail).length := by
    rw [List.length_zipWith, List.length_zipWith, List.length_tail, List.length_tail]; omega
  rw [List.getD_eq_getElem _ _ hz, List.getElem_zipWith, List.getElem_zipWith,
    List.getElem_tail, List.getElem_tail,
    List.getD_eq_getElem _ _ (by omega : j + 1 < time.length),
    List.getD_eq_getElem _ _ (by omega : j < time.length),
    List.getD_eq_getElem _ _ (by omega : j + 1 < current.length)]

/-! ### Claim theorems -/

/-- C3: for every time series of length `n ≥ 2`, `_calculate_charge` produces a
sequence of the same length `n`, whose first element is `0` and whose `i`-th
element is the running sum of the increments `(time[j+1] - time[j]) * current[j+1]`
for `j < i` (right-endpoint rule); on `time = [0,1,2,3]`, `current = [0,2,2,2]`
the computed sequence is `[0,2,4,6]`. -/
theorem C3_charge_right_endpoint_rule (time current : List ℚ) (n : ℕ)
    (ht : time.length = n) (hc : current.length = n) (hn : 2 ≤ n) :
    (calculate_charge time current).length = n ∧
    (calculate_charge time current).getD 0 0 = 0 ∧
    (∀ i, i < n → (calculate_charge time current).getD i 0 =
      ∑ j ∈ Finset.range i,
        (time.getD (j + 1) 0 - time.getD j 0) * current.getD (j + 1) 0) ∧
    calculate_charge ([0, 1, 2, 3] : List ℚ) [0, 2, 2, 2] = [0, 2, 4, 6] := by
  have hic : (List.zipWith (· * ·) (List.zipWith (fun a b => b - a) time time.tail)
      current.tail).length = n - 1 := by
    rw [List.length_zipWith, List.length_zipWith, List.length_tail, List.length_tail, ht, hc]
    omega
  have hcc : calculate_charge time current =
      cumsum_from 0 (0 :: List.zipWith (· * ·)
        (List.zipWith (fun a b => b - a) time time.tail) current.tail) := rfl
  have helem : ∀ i, i < n → (calculate_charge time current).getD i 0 =
      ∑ j ∈ Finset.range i,
        (time.getD (j + 1) 0 - time.getD j 0) * current.getD (j + 1) 0 := by
    intro i hi
    have hi' : i < (0 :: List.zipWith (· * ·)
        (List.zipWith (fun a b => b - a) time time.tail) current.tail).length := by
      rw [List.length_cons, hic]; omega
    rw [hcc, cumsum_from_getD _ 0 i hi', List.take_succ_cons, List.sum_cons, zero_add,
      zero_add, take_sum_getD _ i (by rw [hic]; omega)]
    refine Finset.sum_congr rfl ?_
    intro j hj
    have hj' : j < i := Finset.mem_range.mp hj
    exact interval_charges_getD time current j (by rw [ht]; omega) (by rw [hc, ht])
  refine ⟨?_, ?_, helem, ?_⟩
  · rw [hcc, cumsum_from_length, List.length_cons, hic]; omega
  · simpa using helem 0 (by omega)
  · norm_num [calculate_charge, cumsum, cumsum_from]

theorem C3_witness :
    (calculate_charge ([0, 1, 2, 3] : List ℚ) [0, 2, 2, 2]).length = 4 ∧
    calculate_charge ([0, 1, 2, 3] : List ℚ) [0, 2, 2, 2] = [0, 2, 4, 6] :=
  ⟨(C3_charge_right_endpoint_rule [0, 1, 2, 3] [0, 2, 2, 2] 4 rfl rfl (by norm_num)).1,
   (C3_charge_right_endpoint_rule [0, 1, 2, 3] [0, 2, 2, 2] 4 rfl rfl (by norm_num)).2.2.2⟩

/-- C4: when no precomputed charge list is supplied, `__init__` stores `None`
in `cumulative_charge`: `_calculate_charge` assigns the computed list to the
attribute internally but returns `None`, and the constructor then overwrites
the attribute with that return value. -/
theorem C4_init_overwrites_charge_with_none (current time : List ℚ) :
    (Voltammetry_CA_init current time none).cumulative_charge = none ∧
    (calculate_charge_method
        { np_time := time, np_current := current, cumulative_charge := none
          : Voltammetry_CA ℚ }).1 = none ∧
    (calculate_charge_method
        { np_time := time, np_current := current, cumulative_charge := none
          : Voltammetry_CA ℚ }).2.cumulative_charge
      = some (calculate_charge time current) :=
  ⟨rfl, rfl, rfl⟩

theorem C4_witness :
    (Voltammetry_CA_init ([0, 2] : List ℚ) [0, 1] none).cumulative_charge = none :=
  (C4_init_overwrites_charge_with_none [0, 2] [0, 1]).1

/-- C6 counterexample: for `window_size = 5` exceeding the sequence length `3`,
`_analyze_best_linear_fit` does not fail: the loop body never runs and the
sentinel dictionary is returned. -/
theorem C6_counterexample :
    analyze_best_linear_fit ([1, 2, 3] : List ℚ) [1, 2, 3] 5 =
      .ok { start := 0, end_index := 5, r_squared := 0, slope := 0, intercept := 0 } := by
  norm_num [analyze_best_linear_fit, num_windows, best_fit_init]

/-- C6 amended: the code raises no `InvalidWindowError`; for equal-length
inputs, when `window_size` exceeds the sequence length the loop is empty
(`linregress` is never called), and when `window_size = 1` every window is a
single point, which escapes scipy's identical-x raise (its `len(x) > 1`
conjunct fails) and hits the `ssxm == 0` guard, so in both cases the sentinel
initial record is returned. -/
theorem C6_no_invalid_window_error (x y : List ℚ) (w : ℕ)
    (hlen : y.length = x.length) (h : x.length < w ∨ w = 1) :
    analyze_best_linear_fit x y w = .ok (best_fit_init w) := by
  rcases h with h | rfl
  · exact analyze_empty x y w h
  · rw [analyze_eq_run_fit]
    refine run_fit_all_degenerate x y 1 _ ?_
    intro s hs
    have hs' : s < x.length := by unfold num_windows at hs; omega
    have hxlen : ((x.drop s).take 1).length = 1 := by
      rw [List.length_take, List.length_drop]; omega
    obtain ⟨v, hv⟩ := List.length_eq_one.mp hxlen
    have hynn : (y.drop s).take 1 ≠ [] := by
      have hyl : ((y.drop s).take 1).length = 1 := by
        rw [List.length_take, List.length_drop, hlen]; omega
      intro hc
      rw [hc] at hyl
      simp at hyl
    obtain ⟨fi, hfi⟩ := linregress_singleton_ok v ((y.drop s).take 1) hynn
    have hr : fi.r_squared = 0 :=
      linregress_ok_r_squared_of_zero_var [v] ((y.drop s).take 1) fi hfi
        (dev_sumsq_singleton v)
    refine ⟨fi, ?_, le_of_eq hr⟩
    unfold window_fit
    rw [hv]
    exact hfi

theorem C6_witness :
    analyze_best_linear_fit ([1, 2, 3] : List ℚ) [4, 5, 6] 1 = .ok (best_fit_init 1) :=
  C6_no_invalid_window_error [1, 2, 3] [4, 5, 6] 1 rfl (Or.inr rfl)

/-- C8 counterexample: on `x = [1,1,2,3]`, `y = [5,6,7,8]`, `window_size = 2`
the first window's x slice `[1,1]` has zero variance, and the search does not
skip it: `linregress` raises the identical-x `ValueError` and the whole search
fails instead of returning any record. -/
theorem C8_counterexample :
    dev_sumsq ((([1, 1, 2, 3] : List ℚ).drop 0).take 2) = 0 ∧
    analyze_best_linear_fit ([1, 1, 2, 3] : List ℚ) [5, 6, 7, 8] 2 = .error .identicalX := by
  constructor
  · norm_num [dev_sumsq, mean]
  · norm_num [analyze_best_linear_fit, num_windows, List.range_succ, fit_step, window_fit,
      linregress, all_x_identical, List.headI, best_fit_init]

/-- C8 amended: for equal-length inputs, a window of width at least 2 whose x
slice has zero variance (all values identical) is not skipped: `linregress`
raises `ValueError("Cannot calculate a linear regression if all x values are
identical")` and the search aborts with that error, so the window is never
selected as best because no result is returned at all. -/
theorem C8_identical_x_aborts_search (x y : List ℚ) (w s : ℕ)
    (hlen : y.length = x.length) (hs : s < num_windows x.length w) (hw : 1 < w)
    (hvar : all_x_identical ((x.drop s).take w)) :
    dev_sumsq ((x.drop s).take w) = 0 ∧
    analyze_best_linear_fit x y w = .error .identicalX := by
  refine ⟨dev_sumsq_of_identical _ hvar, ?_⟩
  have hxlen : ((x.drop s).take w).length = w := window_slice_length x w s hs
  have herr_s : window_fit x y w s = .error .identicalX := by
    unfold window_fit linregress
    rw [if_neg, if_pos ⟨hvar, by rw [hxlen]; omega⟩]
    push_neg
    refine ⟨?_, ?_⟩
    · rw [hxlen]; omega
    · rw [List.length_take, List.length_drop, hlen]
      unfold num_windows at hs
      omega
  rcases hres : analyze_best_linear_fit x y w with e | res
  · obtain ⟨s', hs', herr'⟩ := run_fit_error_src x y w (num_windows x.length w) e
      (by rwa [analyze_eq_run_fit] at hres)
    have hxl' : ((x.drop s').take w).length = w := window_slice_length x w s' hs'
    have hxne : (x.drop s').take w ≠ [] := by
      intro hc
      rw [hc] at hxl'
      simp at hxl'
      omega
    have hyne : (y.drop s').take w ≠ [] := by
      have hyl : ((y.drop s').take w).length = w := by
        rw [List.length_take, List.length_drop, hlen]
        rw [List.length_take, List.length_drop] at hxl'
        omega
      intro hc
      rw [hc] at hyl
      simp at hyl
      omega
    have he : e = .identicalX := window_fit_error_identicalX x y w s' e hxne hyne herr'
    rw [he]
  · exfalso
    obtain ⟨-, hall, -, -⟩ := run_fit_invariant x y w (num_windows x.length w) res
      (by rwa [analyze_eq_run_fit] at hres)
    obtain ⟨fi, hfi, -⟩ := hall s hs
    rw [herr_s] at hfi
    exact Except.noConfusion hfi

theorem C8_witness :
    dev_sumsq ((([4, 4, 5, 6] : List ℚ).drop 0).take 2) = 0 ∧
    analyze_best_linear_fit ([4, 4, 5, 6] : List ℚ) [1, 2, 3, 4] 2 = .error .identicalX :=
  C8_identical_x_aborts_search [4, 4, 5, 6] [1, 2, 3, 4] 2 0 rfl
    (by norm_num [num_windows]) (by norm_num)
    (by norm_num [all_x_identical, List.headI])

/-- C9 counterexample: on the degenerate input `x = [1,1,1]`, `y = [1,2,3]`,
`window_size = 2` every window's x slice is flat (zero variance), and the
search does not return the sentinel: `linregress` raises the identical-x
`ValueError` on the first window and the search fails. -/
theorem C9_counterexample :
    dev_sumsq ((([1, 1, 1] : List ℚ).drop 0).take 2) = 0 ∧
    dev_sumsq ((([1, 1, 1] : List ℚ).drop 1).take 2) = 0 ∧
    analyze_best_linear_fit ([1, 1, 1] : List ℚ) [1, 2, 3] 2 = .error .identicalX := by
  refine ⟨by norm_num [dev_sumsq, mean], by norm_num [dev_sumsq, mean], ?_⟩
  norm_num [analyze_best_linear_fit, num_windows, List.range_succ, fit_step, window_fit,
    linregress, all_x_identical, List.headI, best_fit_init]

/-- C9 amended: the running best is initialised to the first window
(`start = 0`) with `r_squared = 0` and is replaced only on strictly greater
`r_squared`, so whenever the search returns a result, ties keep the
earliest-indexed window and an input on which no window improves yields
exactly the sentinel record; but a degenerate input whose windows are flat
(constant x of width ≥ 2) makes `linregress` raise `ValueError` instead of
yielding the sentinel. -/
theorem C9_ties_resolve_earliest_on_success (x y : List ℚ) (w : ℕ)
    (res : LinearFitResult ℚ) (hres : analyze_best_linear_fit x y w = .ok res) :
    (∀ s fi, s < num_windows x.length w → window_fit x y w s = .ok fi →
        fi.r_squared ≤ res.r_squared) ∧
    (0 < res.r_squared →
      ∃ s₀ fi₀, s₀ < num_windows x.length w ∧ window_fit x y w s₀ = .ok fi₀ ∧
        res.start = s₀ ∧ res.r_squared = fi₀.r_squared ∧
        ∀ t ft, t < s₀ → window_fit x y w t = .ok ft → ft.r_squared < res.r_squared) ∧
    (res.r_squared ≤ 0 → res = best_fit_init w) ∧
    best_fit_init (α := ℚ) w =
      { start := 0, end_index := w, r_squared := 0, slope := 0, intercept := 0 } := by
  obtain ⟨h0, h1, h2, h3⟩ := run_fit_invariant x y w (num_windows x.length w) res
    (by rwa [analyze_eq_run_fit] at hres)
  refine ⟨?_, ?_, h2, rfl⟩
  · intro s fi hs hfi
    obtain ⟨fi', hfi', hle⟩ := h1 s hs
    rw [hfi] at hfi'
    injection hfi' with hh
    rw [← hh] at hle
    exact hle
  · intro hpos
    obtain ⟨s₀, fi₀, hs₀, hfi₀, heq, hlt⟩ := h3 hpos
    refine ⟨s₀, fi₀, hs₀, hfi₀, ?_, ?_, hlt⟩
    · rw [heq]
    · rw [heq]

theorem C9_witness :
    analyze_best_linear_fit ([0, 1, 2, 3] : List ℚ) [0, 1, 2, 3] 2 =
      .ok { start := 0, end_index := 2, r_squared := 1, slope := 1, intercept := 0 } ∧
    (1 : ℚ) ≤ 1 := by
  have hres : analyze_best_linear_fit ([0, 1, 2, 3] : List ℚ) [0, 1, 2, 3] 2 =
      .ok { start := 0, end_index := 2, r_squared := 1, slope := 1, intercept := 0 } := by
    norm_num [analyze_best_linear_fit, num_windows, List.range_succ, fit_step, window_fit,
      linregress, all_x_identical, List.headI, dev_sumsq, dev_sumprod, mean, best_fit_init]
  have happ := (C9_ties_resolve_earliest_on_success [0, 1, 2, 3] [0, 1, 2, 3] 2 _ hres).1
    1 { slope := 1, intercept := 0, r_squared := 1 } (by norm_num [num_windows])
    (by norm_num [window_fit, linregress, all_x_identical, List.headI, dev_sumsq,
      dev_sumprod, mean])
  exact ⟨hres, happ⟩

/-- C10 counterexample: `x = [2,2,2]`, `y = [4,5,6]` have equal length `3` and
`window_size = 2` satisfies `2 ≤ w ≤ 3`, yet the search returns no window at
all: `linregress` raises the identical-x `ValueError` on the first window. -/
theorem C10_counterexample :
    ([2, 2, 2] : List ℚ).length = 3 ∧ ([4, 5, 6] : List ℚ).length = 3 ∧
    analyze_best_linear_fit ([2, 2, 2] : List ℚ) [4, 5, 6] 2 = .error .identicalX := by
  refine ⟨rfl, rfl, ?_⟩
  norm_num [analyze_best_linear_fit, num_windows, List.range_succ, fit_step, window_fit,
    linregress, all_x_identical, List.headI, best_fit_init]

/-- C10 amended: for equal-length sequences of length `L` and
`2 ≤ window_size ≤ L`, whenever the search returns a result (no constant-x
window of width ≥ 2 aborted it with `ValueError`), that result's window has
`end_index = start + window_size` and `0 ≤ start ≤ L - window_size`. -/
theorem C10_window_width_and_start_bounds_on_success (x y : List ℚ) (w : ℕ)
    (hlen : y.length = x.length) (hw2 : 2 ≤ w) (hwL : w ≤ x.length)
    (res : LinearFitResult ℚ) (hres : analyze_best_linear_fit x y w = .ok res) :
    res.end_index = res.start + w ∧ res.start ≤ x.length - w := by
  obtain ⟨h0, h1, h2, h3⟩ := run_fit_invariant x y w (num_windows x.length w) res
    (by rwa [analyze_eq_run_fit] at hres)
  rcases le_or_lt res.r_squared 0 with hle | hpos
  · rw [h2 hle]
    exact ⟨by simp [best_fit_init], by simp [best_fit_init]⟩
  · obtain ⟨s₀, fi₀, hs₀, -, heq, -⟩ := h3 hpos
    have hs₀' : s₀ < x.length + 1 - w := by
      unfold num_windows at hs₀
      omega
    rw [heq]
    refine ⟨rfl, ?_⟩
    show s₀ ≤ x.length - w
    omega

theorem C10_witness :
    analyze_best_linear_fit ([1, 2, 3] : List ℚ) [1, 2, 3] 2 =
      .ok { start := 0, end_index := 2, r_squared := 1, slope := 1, intercept := 0 } ∧
    (2 : ℕ) = 0 + 2 ∧ (0 : ℕ) ≤ 1 := by
  have hres : analyze_best_linear_fit ([1, 2, 3] : List ℚ) [1, 2, 3] 2 =
      .ok { start := 0, end_index := 2, r_squared := 1, slope := 1, intercept := 0 } := by
    norm_num [analyze_best_linear_fit, num_windows, List.range_succ, fit_step, window_fit,
      linregress, all_x_identical, List.headI, dev_sumsq, dev_sumprod, mean, best_fit_init]
  have h := C10_window_width_and_start_bounds_on_success [1, 2, 3] [1, 2, 3] 2 rfl
    (by norm_num) (by norm_num) _ hres
  exact ⟨hres, h.1, h.2⟩

/-- C1: for a strictly increasing time series of length at least 2 and positive
electron count, area and concentration, `_calculate_diffusion_coefficient`
discards the first sample, fits `current[1:]` against `1/sqrt(time[1:])`
(the source computes `np.sqrt(1/t)`, equal pointwise in ℝ), and returns
exactly `(slope^2 * pi) / (n^2 * F^2 * A^2 * C^2)` where `slope` is the
returned best-fit slope (a `ValueError` escaping the fit propagates
unchanged); every returned value is non-negative. -/
theorem C1_diffusion_coefficient_formula (time current : List ℝ) (window_size : ℕ)
    (n A C : ℝ) (ht : List.Chain' (· < ·) time) (hlen : 2 ≤ time.length)
    (hn : 0 < n) (hA : 0 < A) (hC : 0 < C) :
    calculate_diffusion_coefficient time current window_size n A C =
      (analyze_best_linear_fit (time.tail.map (fun t => 1 / Real.sqrt t))
          current.tail window_size).map
        (fun best_fit => (best_fit.slope ^ 2 * Real.pi) /
          (n ^ 2 * faraday_constant ^ 2 * A ^ 2 * C ^ 2)) ∧
    (∀ D, calculate_diffusion_coefficient time current window_size n A C = .ok D →
      0 ≤ D) := by
  have hmap : time.tail.map (fun t => Real.sqrt (1 / t)) =
      time.tail.map (fun t => 1 / Real.sqrt t) := by
    refine List.map_congr_left ?_
    intro t _
    rw [one_div, Real.sqrt_inv, one_div]
  have hmain : calculate_diffusion_coefficient time current window_size n A C =
      (analyze_best_linear_fit (time.tail.map (fun t => 1 / Real.sqrt t))
          current.tail window_size).map
        (fun best_fit => (best_fit.slope ^ 2 * Real.pi) /
          (n ^ 2 * faraday_constant ^ 2 * A ^ 2 * C ^ 2)) := by
    unfold calculate_diffusion_coefficient
    dsimp only
    rw [hmap]
    rcases analyze_best_linear_fit (time.tail.map (fun t => 1 / Real.sqrt t))
        current.tail window_size with e | bf <;> rfl
  refine ⟨hmain, ?_⟩
  intro D hD
  rw [hmain] at hD
  rcases hfit : analyze_best_linear_fit (time.tail.map (fun t => 1 / Real.sqrt t))
      current.tail window_size with e | bf
  · rw [hfit] at hD
    simp only [Except.map] at hD
    exact Except.noConfusion hD
  · rw [hfit] at hD
    simp only [Except.map, Except.ok.injEq] at hD
    rw [← hD]
    have hden : 0 ≤ n ^ 2 * faraday_constant ^ 2 * A ^ 2 * C ^ 2 := by positivity
    exact div_nonneg (mul_nonneg (sq_nonneg _) Real.pi_pos.le) hden

theorem C1_witness :
    calculate_diffusion_coefficient [0, 1] [1, 2] 10 1 1 1 =
      (analyze_best_linear_fit ((([0, 1] : List ℝ).tail).map (fun t => 1 / Real.sqrt t))
          (([1, 2] : List ℝ).tail) 10).map
        (fun best_fit => (best_fit.slope ^ 2 * Real.pi) /
          ((1 : ℝ) ^ 2 * faraday_constant ^ 2 * (1 : ℝ) ^ 2 * (1 : ℝ) ^ 2)) ∧
    0 ≤ (0 : ℝ) := by
  have h := C1_diffusion_coefficient_formula [0, 1] [1, 2] 10 1 1 1
    (by norm_num [List.chain'_cons, List.chain'_singleton]) (by norm_num)
    one_pos one_pos one_pos
  refine ⟨h.1, h.2 0 ?_⟩
  have h1 := analyze_empty ((([0, 1] : List ℝ).tail).map (fun t => Real.sqrt (1 / t)))
    (([1, 2] : List ℝ).tail) 10 (by norm_num)
  unfold calculate_diffusion_coefficient
  dsimp only
  rw [h1]
  norm_num [best_fit_init]

/-- C2: on inputs where both candidate fits are defined (positive tail
currents, so `Real.log` agrees with `np.log`, and both fits return a result),
`_analyze_reaction_kinetics` fits `ln(current[1:])` and `1/current[1:]`
against `time[1:]` with the same window size, selects order 1 with
`rate_constant = -slope₁` exactly when the first-order fit's `r_squared` is
strictly greater than the second-order fit's, and otherwise — including exact
ties — selects order 2 with `rate_constant = +slope₂`. -/
theorem C2_kinetics_selection_rule (time current : List ℝ) (window_size : ℕ)
    (hpos : ∀ c ∈ current.tail, 0 < c) (f1 f2 : LinearFitResult ℝ)
    (h1 : analyze_best_linear_fit time.tail (current.tail.map Real.log) window_size
      = .ok f1)
    (h2 : analyze_best_linear_fit time.tail (current.tail.map (fun c => 1 / c)) window_size
      = .ok f2) :
    analyze_reaction_kinetics time current window_size =
      (if f1.r_squared > f2.r_squared then .ok (1, -f1.slope) else .ok (2, f2.slope)) ∧
    (f1.r_squared = f2.r_squared →
      analyze_reaction_kinetics time current window_size = .ok (2, f2.slope)) := by
  have hmain : analyze_reaction_kinetics time current window_size =
      (if f1.r_squared > f2.r_squared then .ok (1, -f1.slope) else .ok (2, f2.slope)) := by
    unfold analyze_reaction_kinetics
    rw [h1, h2]
  refine ⟨hmain, ?_⟩
  intro htie
  rw [hmain, htie, if_neg (lt_irrefl _)]

theorem C2_witness :
    analyze_reaction_kinetics [0, 1] [1, 2] 2 = .ok (2, 0) := by
  have h := (C2_kinetics_selection_rule [0, 1] [1, 2] 2
    (by intro c hc; simp only [List.tail_cons, List.mem_singleton] at hc; rw [hc]; norm_num)
    (best_fit_init 2) (best_fit_init 2)
    (analyze_empty _ _ 2 (by norm_num)) (analyze_empty _ _ 2 (by norm_num))).2 rfl
  exact h

/-- C5 counterexample: on `time = [0,1]`, `current = [1,0]` (the default
`window_size = 10`), the tail current contains `0`, yet
`_analyze_reaction_kinetics` raises no `DomainError`: the fit loops never run
(one tail sample, window 10), both fits return the sentinel, and the method
returns order 2 with `rate_constant = 0`.  (In the Python source
`np.log(0.0)` yields `-inf` with a warning, not an exception, and no
`DomainError` exists anywhere in the code; the transformed arrays are computed
but never consumed here, so the exact model and numpy agree on the output.) -/
theorem C5_counterexample :
    ((0 : ℝ) ∈ ([1, 0] : List ℝ).tail) ∧
    analyze_reaction_kinetics [0, 1] [1, 0] 10 = .ok (2, 0) := by
  refine ⟨by simp, ?_⟩
  have h1 := analyze_empty (([0, 1] : List ℝ).tail)
    ((([1, 0] : List ℝ).tail).map Real.log) 10 (by norm_num)
  have h2 := analyze_empty (([0, 1] : List ℝ).tail)
    ((([1, 0] : List ℝ).tail).map (fun c => 1 / c)) 10 (by norm_num)
  unfold analyze_reaction_kinetics
  rw [h1, h2]
  dsimp only
  rw [if_neg (lt_irrefl _)]
  rfl

/-- C5 amended: a current array whose tail contains a zero or negative value
does not make the classifier fail with a `DomainError` (no such error exists;
numpy produces non-finite values instead of raising); in particular whenever
the time tail is shorter than the window size no regression is ever attempted
— the transformed arrays are computed but never consumed, so exact and float
semantics agree — and the classifier returns order 2 with `rate_constant = 0`,
as at the counterexample input. -/
theorem C5_no_domain_error (time current : List ℝ) (window_size : ℕ)
    (h : ∃ c ∈ current.tail, c ≤ 0) (hshort : time.tail.length < window_size) :
    analyze_reaction_kinetics time current window_size = .ok (2, 0) := by
  have h1 := analyze_empty time.tail (current.tail.map Real.log) window_size hshort
  have h2 := analyze_empty time.tail (current.tail.map (fun c => 1 / c)) window_size hshort
  unfold analyze_reaction_kinetics
  rw [h1, h2]
  dsimp only
  rw [if_neg (lt_irrefl _)]
  rfl

theorem C5_witness :
    analyze_reaction_kinetics [0, 2] [1, -1] 10 = .ok (2, 0) :=
  C5_no_domain_error [0, 2] [1, -1] 10 ⟨-1, by simp, by norm_num⟩ (by norm_num)

/-- C7 counterexample: with a negative electrode area `A = -1` (and `n = C = 1`)
`_calculate_diffusion_coefficient` raises nothing: it returns a number (here
`0`, the sentinel slope squared over a positive denominator).  No
`InvalidParameterError` exists anywhere in the code. -/
theorem C7_counterexample :
    calculate_diffusion_coefficient [0, 1] [2, 3] 10 1 (-1) 1 = .ok 0 := by
  have h1 := analyze_empty ((([0, 1] : List ℝ).tail).map (fun t => Real.sqrt (1 / t)))
    (([2, 3] : List ℝ).tail) 10 (by norm_num)
  unfold calculate_diffusion_coefficient
  dsimp only
  rw [h1]
  norm_num [best_fit_init]

/-- C7 amended: non-positive `n`, `A` or `C` are not validated: they enter the
Cottrell formula squared, so their sign is ignored and the method still returns
`(slope^2 * pi) / (n^2 * F^2 * A^2 * C^2)` instead of failing (a `ValueError`
from the fit itself propagates unchanged, as for any other parameters). -/
theorem C7_no_invalid_parameter_error (time current : List ℝ) (window_size : ℕ)
    (n A C : ℝ) (h : n ≤ 0 ∨ A ≤ 0 ∨ C ≤ 0) :
    calculate_diffusion_coefficient time current window_size n A C =
      (analyze_best_linear_fit (time.tail.map (fun t => Real.sqrt (1 / t)))
          current.tail window_size).map
        (fun best_fit => (best_fit.slope ^ 2 * Real.pi) /
          (n ^ 2 * faraday_constant ^ 2 * A ^ 2 * C ^ 2)) := by
  unfold calculate_diffusion_coefficient
  dsimp only
  rcases analyze_best_linear_fit (time.tail.map (fun t => Real.sqrt (1 / t)))
      current.tail window_size with e | bf <;> rfl

theorem C7_witness :
    calculate_diffusion_coefficient [0, 1] [2, 3] 10 1 (-1) 1 =
      (analyze_best_linear_fit ((([0, 1] : List ℝ).tail).map (fun t => Real.sqrt (1 / t)))
          (([2, 3] : List ℝ).tail) 10).map
        (fun best_fit => (best_fit.slope ^ 2 * Real.pi) /
          ((1 : ℝ) ^ 2 * faraday_constant ^ 2 * (-1 : ℝ) ^ 2 * (1 : ℝ) ^ 2)) :=
  C7_no_invalid_parameter_error [0, 1] [2, 3] 10 1 (-1) 1
    (Or.inr (Or.inl (by norm_num)))

end MADAP
